import Mathlib

/-!
Shallow embedding of the consensus observer core
(src/consensus/src/consensus_observer/observer.rs) together with proofs
about the specification claims.

Cryptographic signature checks are abstracted as a boolean oracle, and
effectful calls to the execution client, to the network and to the logger
are recorded in an explicit effect trace.  Collaborator modules whose
sources are not part of the repository snapshot (the payload store, the
pending block buffer, the subscription sender check and the structural
verification of wire messages) are modelled from the specification; each
such definition is marked in its doc comment.
-/

namespace ConsensusObserver

/-- Block metadata, from the aptos BlockInfo type: epoch, round, block id
    and parent id.  Hashes are modelled as natural numbers. -/
structure BlockInfo where
  epoch : Nat
  round : Nat
  id : Nat
  parent_id : Nat
deriving DecidableEq

/-- LedgerInfoWithSignatures: only the commit info is relevant to the
    observer core; the aggregated signature is handled by the oracle. -/
structure LedgerInfo where
  commit_info : BlockInfo
deriving DecidableEq

/-- The epoch of the commit info of a ledger info. -/
def LedgerInfo.epoch (li : LedgerInfo) : Nat := li.commit_info.epoch

/-- The round of the commit info of a ledger info. -/
def LedgerInfo.round (li : LedgerInfo) : Nat := li.commit_info.round

/-- OrderedBlock: a non-empty sequence of blocks plus an ordered proof. -/
structure OrderedBlock where
  firstBlock : BlockInfo
  restBlocks : List BlockInfo
  ordered_proof : LedgerInfo
deriving DecidableEq

/-- The non-empty block list of an ordered block. -/
def OrderedBlock.blocks (ob : OrderedBlock) : List BlockInfo :=
  ob.firstBlock :: ob.restBlocks

/-- The first block of an ordered block. -/
def OrderedBlock.first_block (ob : OrderedBlock) : BlockInfo := ob.firstBlock

/-- The last block of an ordered block. -/
def OrderedBlock.last_block (ob : OrderedBlock) : BlockInfo :=
  ob.restBlocks.getLastD ob.firstBlock

/-- The block info carried by the ordered proof. -/
def OrderedBlock.proof_block_info (ob : OrderedBlock) : BlockInfo :=
  ob.ordered_proof.commit_info

/-- The key under which an ordered block is stored in the pending buffer. -/
def OrderedBlock.key (ob : OrderedBlock) : Nat × Nat :=
  (ob.last_block.epoch, ob.last_block.round)

/-- CommitDecision: a ledger info asserting commit at (epoch, round). -/
structure CommitDecision where
  commit_proof : LedgerInfo
deriving DecidableEq

/-- The epoch a commit decision commits at. -/
def CommitDecision.epoch (cd : CommitDecision) : Nat :=
  cd.commit_proof.commit_info.epoch

/-- The round a commit decision commits at. -/
def CommitDecision.round (cd : CommitDecision) : Nat :=
  cd.commit_proof.commit_info.round

/-- BlockPayload message: a block plus its transactions and an optional
    transaction limit. -/
structure BlockPayload where
  block : BlockInfo
  transactions : List Nat
  limit : Option Nat
deriving DecidableEq

/-- EpochState: the epoch number.  The verifier member is abstracted into
    the signature oracle. -/
structure EpochState where
  epoch : Nat
deriving DecidableEq

/-- Signature verification oracle: stands for the cryptographic check of an
    aggregated signature on a ledger info under the verifier of the given
    epoch state.  It abstracts both verify_ordered_proof and
    verify_commit_proof. -/
abbrev SigVer := EpochState → LedgerInfo → Bool

/-- Modelled from the spec: the contiguous parent chain check inside an
    ordered block (the network message module is not under src). -/
def chainOk : List BlockInfo → Bool
  | [] => true
  | [_] => true
  | a :: b :: rest => (decide (b.parent_id = a.id)) && chainOk (b :: rest)

/-- Modelled from the spec: structural verification of an OrderedBlock
    (the network message module is not under src).  The blocks form a
    contiguous parent chain and the ordered proof matches the info of the
    last block. -/
def OrderedBlock.verify_ordered_blocks (ob : OrderedBlock) : Bool :=
  chainOk ob.blocks && decide (ob.proof_block_info = ob.last_block)

/-- Strict lexicographic order on (epoch, round) pairs. -/
def lexLt (a b : Nat × Nat) : Bool :=
  decide (a.1 < b.1) || (decide (a.1 = b.1) && decide (a.2 < b.2))

/-- Lexicographic order on (epoch, round) pairs. -/
def lexLe (a b : Nat × Nat) : Bool :=
  lexLt a b || decide (a = b)

/-- The stored data of one block payload. -/
structure BlockPayloadData where
  transactions : List Nat
  limit : Option Nat
deriving DecidableEq

/-- The payload store: an association of block ids to payload data. -/
abbrev PayloadStore := List (Nat × BlockPayloadData)

/-- Modelled from the spec: payload lookup by block id in the payload
    store (the payload store module is not under src). -/
def lookupPayload : PayloadStore → Nat → Option BlockPayloadData
  | [], _ => none
  | (i, d) :: rest, j => if i = j then some d else lookupPayload rest j

/-- Modelled from the spec: insert a payload, keyed by block id (the
    payload store module is not under src). -/
def insert_block_payload (store : PayloadStore) (block : BlockInfo)
    (transactions : List Nat) (limit : Option Nat) : PayloadStore :=
  (block.id, ⟨transactions, limit⟩) ::
    store.filter (fun p => !(decide (p.1 = block.id)))

/-- Modelled from the spec: existence test for the payloads of all the
    given blocks (the payload store module is not under src). -/
def all_payloads_exist (store : PayloadStore) (blocks : List BlockInfo) : Bool :=
  blocks.all (fun b => (lookupPayload store b.id).isSome)

/-- Modelled from the spec: bulk removal of committed block payloads (the
    payload store module is not under src). -/
def remove_blocks (store : PayloadStore) (blocks : List BlockInfo) : PayloadStore :=
  store.filter (fun p => !(blocks.any (fun b => decide (b.id = p.1))))

/-- One entry of the pending block buffer: the ordered block, its verified
    flag and the optionally attached commit decision. -/
structure PendingEntry where
  ordered_block : OrderedBlock
  verified : Bool
  commit_decision : Option CommitDecision
deriving DecidableEq

/-- The pending block buffer: an ordered association list keyed by
    (epoch, round). -/
abbrev PendingBlocks := List ((Nat × Nat) × PendingEntry)

/-- Key lookup in the pending buffer. -/
def lookupKey : PendingBlocks → (Nat × Nat) → Option PendingEntry
  | [], _ => none
  | (k, e) :: rest, j => if k = j then some e else lookupKey rest j

/-- Sorted insertion into the pending buffer, by lexicographic key. -/
def insertSorted (k : Nat × Nat) (e : PendingEntry) : PendingBlocks → PendingBlocks
  | [] => [(k, e)]
  | (k', e') :: rest =>
    if lexLt k k' then (k, e) :: (k', e') :: rest
    else (k', e') :: insertSorted k e rest

/-- Modelled from the spec: insert an ordered block into the pending
    buffer (the pending blocks module is not under src).  Idempotent on
    key, overwriting only to raise the verified flag, and dropping the
    incoming entry at the configured depth bound. -/
def insert_ordered_block (max_pending_blocks : Nat) (pending : PendingBlocks)
    (ob : OrderedBlock) (verified : Bool) : PendingBlocks :=
  match lookupKey pending ob.key with
  | some entry =>
    if !entry.verified && verified then
      pending.map (fun p => if p.1 = ob.key then (p.1, ⟨ob, true, none⟩) else p)
    else pending
  | none =>
    if pending.length ≥ max_pending_blocks then pending
    else insertSorted ob.key ⟨ob, verified, none⟩ pending

/-- Modelled from the spec: attach a commit decision to the entry at its
    (epoch, round) key, or do nothing when the key is absent (the pending
    blocks module is not under src). -/
def update_commit_decision (pending : PendingBlocks) (cd : CommitDecision) :
    PendingBlocks :=
  pending.map (fun p =>
    if p.1 = (cd.epoch, cd.round) then (p.1, { p.2 with commit_decision := some cd })
    else p)

/-- Modelled from the spec: return the entry at (epoch, round) iff its
    verified flag is set (the pending blocks module is not under src). -/
def get_verified_pending_block (pending : PendingBlocks) (epoch round : Nat) :
    Option OrderedBlock :=
  match lookupKey pending (epoch, round) with
  | some entry => if entry.verified then some entry.ordered_block else none
  | none => none

/-- Modelled from the spec: the last block of the highest-keyed entry (the
    pending blocks module is not under src). -/
def get_last_pending_block (pending : PendingBlocks) : Option BlockInfo :=
  pending.getLast?.map (fun p => p.2.ordered_block.last_block)

/-- Modelled from the spec: remove every entry whose key is at most the
    key of the commit ledger info (the pending blocks module is not under
    src). -/
def remove_blocks_for_commit (pending : PendingBlocks) (li : LedgerInfo) :
    PendingBlocks :=
  pending.filter (fun p => !(lexLe p.1 (li.epoch, li.round)))

/-- Modelled from the spec: on epoch rollover, promote unverified entries
    whose ordered proof now verifies and discard the other unverified
    entries; the epoch state argument is the one supplied by the caller
    (the pending blocks module is not under src). -/
def verify_pending_blocks (ver : SigVer) (epoch_state : EpochState)
    (pending : PendingBlocks) : PendingBlocks :=
  pending.filterMap (fun p =>
    if p.2.verified then some p
    else if ver epoch_state p.2.ordered_block.ordered_proof then
      some (p.1, { p.2 with verified := true })
    else none)

/-- Modelled from the spec: the verified entries in buffer order, paired
    with their optional commit decisions (the pending blocks module is not
    under src). -/
def get_all_verified_pending_blocks (pending : PendingBlocks) :
    List ((Nat × Nat) × (OrderedBlock × Option CommitDecision)) :=
  (pending.filter (fun p => p.2.verified)).map
    (fun p => (p.1, (p.2.ordered_block, p.2.commit_decision)))

/-- The active subscription record; only the peer matters to the claims. -/
structure ConsensusObserverSubscription where
  peer : Nat
deriving DecidableEq

/-- The observer configuration options touched by the embedded code. -/
structure ConsensusObserverConfig where
  max_pending_blocks : Nat
deriving DecidableEq

/-- The externally visible effects of the observer: calls into the
    execution client, network sends, sync task management and log lines.
    The syncHandleReset marker records the instant at which the sync
    handle field is set back to none. -/
inductive Effect where
  | finalizeOrder (blocks : List BlockInfo) (proof : LedgerInfo)
  | sendCommitMsg (proof : LedgerInfo)
  | syncTo (target : LedgerInfo)
  | notifySync (epoch : Nat) (round : Nat)
  | unsubscribeRpc (peer : Nat)
  | endEpoch
  | startEpoch (epoch : Nat)
  | syncHandleReset
  | abortSyncJob
  | spawnSyncJob (target : LedgerInfo)
  | logInfo
  | logWarning
  | logError
deriving DecidableEq

/-- The conditions under which the observer code aborts the process. -/
inductive ObserverPanic where
  | failedToReadLedgerInfo
  | epochStateNotSet
  | reconfigListenerAbsent
  | reconfigStreamEnded
  | validatorSetMissing
deriving DecidableEq

/-- The mutable fields of the ConsensusObserver structure. -/
structure ObserverState where
  epoch_state : Option EpochState
  root : LedgerInfo
  block_payload_store : PayloadStore
  pending_ordered_blocks : PendingBlocks
  sync_handle : Option Unit
  active_observer_subscription : Option ConsensusObserverSubscription
deriving DecidableEq

/-- ConsensusObserver::new reads the latest ledger info from storage and
    aborts when the read fails; the storage read result is the argument. -/
def new (latest_ledger_info : Option LedgerInfo) :
    Except ObserverPanic ObserverState :=
  match latest_ledger_info with
  | none => .error .failedToReadLedgerInfo
  | some root =>
    .ok { epoch_state := none, root := root, block_payload_store := [],
          pending_ordered_blocks := [], sync_handle := none,
          active_observer_subscription := none }

/-- get_epoch_state aborts when the epoch state is not set. -/
def get_epoch_state (s : ObserverState) : Except ObserverPanic EpochState :=
  match s.epoch_state with
  | some es => .ok es
  | none => .error .epochStateNotSet

/-- get_last_block: the last pending block, or the commit info of the
    root when the pending buffer is empty. -/
def get_last_block (s : ObserverState) : BlockInfo :=
  match get_last_pending_block s.pending_ordered_blocks with
  | some b => b
  | none => s.root.commit_info

/-- finalize_ordered_block hands the blocks, the ordered proof and a fresh
    commit callback to the execution client. -/
def finalize_ordered_block (ob : OrderedBlock) : List Effect :=
  [.finalizeOrder ob.blocks ob.ordered_proof]

/-- forward_commit_decision sends the commit proof to the execution
    client as a commit message. -/
def forward_commit_decision (cd : CommitDecision) : List Effect :=
  [.sendCommitMsg cd.commit_proof]

/-- The commit callback constructed by create_commit_callback, acting on
    the cloned payload store, pending buffer and root. -/
def commit_callback (store : PayloadStore) (pending : PendingBlocks)
    (root : LedgerInfo) (blocks : List BlockInfo) (ledger_info : LedgerInfo) :
    PayloadStore × PendingBlocks × LedgerInfo :=
  let store1 := remove_blocks store blocks
  let pending1 := remove_blocks_for_commit pending ledger_info
  if ledger_info.commit_info.epoch ≠ root.commit_info.epoch then
    (store1, pending1, root)
  else if ledger_info.commit_info.round > root.commit_info.round then
    (store1, pending1, ledger_info)
  else
    (store1, pending1, root)

/-- process_block_payload inserts the payload unconditionally. -/
def process_block_payload (s : ObserverState) (bp : BlockPayload) : ObserverState :=
  { s with block_payload_store :=
      insert_block_payload s.block_payload_store bp.block bp.transactions bp.limit }

/-- process_commit_decision_for_pending_block: try to attach the decision
    to the verified pending block at its key; on success record it and,
    outside sync mode, forward it. -/
def process_commit_decision_for_pending_block (s : ObserverState)
    (cd : CommitDecision) : Bool × ObserverState × List Effect :=
  match get_verified_pending_block s.pending_ordered_blocks cd.epoch cd.round with
  | some pending_block =>
    if all_payloads_exist s.block_payload_store pending_block.blocks then
      (true,
       { s with pending_ordered_blocks :=
           update_commit_decision s.pending_ordered_blocks cd },
       if s.sync_handle.isNone then forward_commit_decision cd else [])
    else (false, s, [])
  | none => (false, s, [])

/-- process_commit_decision: verify a current-epoch decision, try to
    attach it, and otherwise fall through to the state sync check. -/
def process_commit_decision (ver : SigVer) (s : ObserverState)
    (cd : CommitDecision) : Except ObserverPanic (ObserverState × List Effect) :=
  match get_epoch_state s with
  | .error p => .error p
  | .ok epoch_state =>
    if cd.epoch = epoch_state.epoch ∧ ver epoch_state cd.commit_proof = false then
      .ok (s, [.logError])
    else
      let att :=
        if cd.epoch = epoch_state.epoch then
          process_commit_decision_for_pending_block s cd
        else (false, s, [])
      if att.1 then .ok (att.2.1, att.2.2)
      else
        let last_block := get_last_block att.2.1
        if cd.epoch > last_block.epoch ∨ cd.round > last_block.round then
          .ok ({ att.2.1 with
                  root := cd.commit_proof,
                  pending_ordered_blocks :=
                    remove_blocks_for_commit att.2.1.pending_ordered_blocks
                      cd.commit_proof,
                  sync_handle := some () },
               att.2.2 ++ [.logInfo, .spawnSyncJob cd.commit_proof]
                 ++ (if att.2.1.sync_handle.isSome then [.abortSyncJob] else []))
        else .ok (att.2.1, att.2.2)

/-- process_ordered_block: structural check, proof check for the current
    epoch, parent chain gate, and immediate finalization when verified and
    outside sync mode. -/
def process_ordered_block (ver : SigVer) (config : ConsensusObserverConfig)
    (s : ObserverState) (ordered_block : OrderedBlock) :
    Except ObserverPanic (ObserverState × List Effect) :=
  if ordered_block.verify_ordered_blocks = false then .ok (s, [.logError])
  else
    match get_epoch_state s with
    | .error p => .error p
    | .ok epoch_state =>
      if ordered_block.proof_block_info.epoch = epoch_state.epoch ∧
          ver epoch_state ordered_block.ordered_proof = false then
        .ok (s, [.logWarning])
      else
        if (get_last_block s).id = ordered_block.first_block.parent_id then
          if decide (ordered_block.proof_block_info.epoch = epoch_state.epoch) = true ∧
              s.sync_handle = none then
            .ok ({ s with
                    pending_ordered_blocks :=
                      insert_ordered_block config.max_pending_blocks
                        s.pending_ordered_blocks ordered_block
                        (decide (ordered_block.proof_block_info.epoch = epoch_state.epoch)) },
                 finalize_ordered_block ordered_block)
          else
            .ok ({ s with
                    pending_ordered_blocks :=
                      insert_ordered_block config.max_pending_blocks
                        s.pending_ordered_blocks ordered_block
                        (decide (ordered_block.proof_block_info.epoch = epoch_state.epoch)) },
                 [])
        else .ok (s, [.logWarning])

/-- Modelled from the spec: the sender check of the subscription module
    (which is not under src); a direct-send message must come from the
    subscribed peer. -/
def verify_message_sender (sub : ConsensusObserverSubscription) (peer : Nat) :
    Bool :=
  decide (sub.peer = peer)

/-- The three direct-send message variants. -/
inductive ConsensusObserverDirectSend where
  | orderedBlock (ob : OrderedBlock)
  | commitDecision (cd : CommitDecision)
  | blockPayload (bp : BlockPayload)
deriving DecidableEq

/-- process_direct_send_message: check that the sender is the subscribed
    peer (unsubscribing from unexpected senders), then dispatch on the
    message variant. -/
def process_direct_send_message (ver : SigVer)
    (config : ConsensusObserverConfig) (s : ObserverState)
    (peer_network_id : Nat) (message : ConsensusObserverDirectSend) :
    Except ObserverPanic (ObserverState × List Effect) :=
  match s.active_observer_subscription with
  | some active_subscription =>
    if verify_message_sender active_subscription peer_network_id = false then
      .ok (s, [.logWarning, .unsubscribeRpc peer_network_id])
    else
      match message with
      | .orderedBlock ob => process_ordered_block ver config s ob
      | .commitDecision cd => process_commit_decision ver s cd
      | .blockPayload bp => .ok (process_block_payload s bp, [])
  | none => .ok (s, [.logWarning, .unsubscribeRpc peer_network_id])

/-- The validator set extracted from the on-chain configs. -/
structure ValidatorSet where
  validators : List Nat
deriving DecidableEq

/-- An on-chain config payload as delivered by a reconfiguration
    notification; each config may be present or missing.  The three
    non-validator configs are opaque to the claims and modelled as
    numbers. -/
structure OnChainConfigPayload where
  epoch : Nat
  validator_set : Option ValidatorSet
  consensus_config : Option Nat
  execution_config : Option Nat
  randomness_config : Option Nat
deriving DecidableEq

/-- extract_on_chain_configs: aborts when the reconfiguration stream
    yields nothing or when the validator set is missing; the remaining
    configs default when missing. -/
def extract_on_chain_configs
    (reconfig_notification : Option OnChainConfigPayload) :
    Except ObserverPanic (EpochState × Nat × Nat × Nat) :=
  match reconfig_notification with
  | none => .error .reconfigStreamEnded
  | some payload =>
    match payload.validator_set with
    | none => .error .validatorSetMissing
    | some _ =>
      .ok (⟨payload.epoch⟩, payload.consensus_config.getD 0,
           payload.execution_config.getD 0, payload.randomness_config.getD 0)

/-- wait_for_epoch_start: the outer option models the presence of the
    reconfiguration listener and the inner one the next notification;
    on success the epoch state is installed and the execution client is
    started for the new epoch. -/
def wait_for_epoch_start
    (reconfig_events : Option (Option OnChainConfigPayload))
    (s : ObserverState) : Except ObserverPanic (ObserverState × List Effect) :=
  match reconfig_events with
  | none => .error .reconfigListenerAbsent
  | some next =>
    match extract_on_chain_configs next with
    | .error p => .error p
    | .ok (epoch_state, _, _, _) =>
      .ok ({ s with epoch_state := some epoch_state },
           [.startEpoch epoch_state.epoch])

/-- check_root_epoch_and_round: the notification must match the root
    commit info exactly. -/
def check_root_epoch_and_round (root : LedgerInfo) (epoch round : Nat) : Bool :=
  decide (root.commit_info.epoch = epoch) && decide (root.commit_info.round = round)

/-- The effects of the drain loop over the verified pending blocks. -/
def drain_effects
    (l : List ((Nat × Nat) × (OrderedBlock × Option CommitDecision))) :
    List Effect :=
  l.flatMap (fun p =>
    finalize_ordered_block p.2.1 ++
      (match p.2.2 with
       | some cd => forward_commit_decision cd
       | none => []))

/-- process_sync_notification: ignore stale notifications, roll the epoch
    over when needed, drop the sync handle and drain the verified pending
    blocks. -/
def process_sync_notification (ver : SigVer)
    (reconfig_events : Option (Option OnChainConfigPayload))
    (s : ObserverState) (epoch round : Nat) :
    Except ObserverPanic (ObserverState × List Effect) :=
  if check_root_epoch_and_round s.root epoch round = false then
    .ok (s, [.logInfo, .logInfo])
  else
    match get_epoch_state s with
    | .error p => .error p
    | .ok current_epoch_state =>
      if epoch > current_epoch_state.epoch then
        match wait_for_epoch_start reconfig_events s with
        | .error p => .error p
        | .ok (s1, effs1) =>
          .ok ({ s1 with
                  pending_ordered_blocks :=
                    verify_pending_blocks ver current_epoch_state
                      s1.pending_ordered_blocks,
                  sync_handle := none },
               [.logInfo] ++ ([.endEpoch] ++ effs1) ++ [.syncHandleReset]
                 ++ drain_effects
                      (get_all_verified_pending_blocks
                        (verify_pending_blocks ver current_epoch_state
                          s1.pending_ordered_blocks)))
      else
        .ok ({ s with sync_handle := none },
             [.logInfo] ++ [.syncHandleReset]
               ++ drain_effects
                    (get_all_verified_pending_blocks s.pending_ordered_blocks))

/-- The body of the task spawned by sync_to_commit_decision; the boolean
    argument records whether the sync_to call of the execution client
    returned successfully. -/
def sync_to_commit_decision (sync_to_succeeded : Bool)
    (commit_decision : CommitDecision) (decision_epoch decision_round : Nat) :
    List Effect :=
  [.syncTo commit_decision.commit_proof]
    ++ (if sync_to_succeeded then [] else [.logWarning])
    ++ [.notifySync decision_epoch decision_round]

/-- Recognizer for finalize effects. -/
def isFinalizeOrder : Effect → Bool
  | .finalizeOrder _ _ => true
  | _ => false

/-- Recognizer for commit message forwarding effects. -/
def isSendCommitMsg : Effect → Bool
  | .sendCommitMsg _ => true
  | _ => false

/-- Well-formedness of the pending buffer: keys strictly increase. -/
def pendingSorted (pending : PendingBlocks) : Prop :=
  pending.Pairwise (fun a b => lexLt a.1 b.1 = true)

/-- One step of iterated commit callback application. -/
def commit_callback_step (acc : PayloadStore × PendingBlocks × LedgerInfo)
    (c : List BlockInfo × LedgerInfo) : PayloadStore × PendingBlocks × LedgerInfo :=
  commit_callback acc.1 acc.2.1 acc.2.2 c.1 c.2

theorem lexLe_refl (a : Nat × Nat) : lexLe a a = true := by
  simp [lexLe]

theorem lexLe_trans {a b c : Nat × Nat} (h1 : lexLe a b = true)
    (h2 : lexLe b c = true) : lexLe a c = true := by
  obtain ⟨a1, a2⟩ := a
  obtain ⟨b1, b2⟩ := b
  obtain ⟨c1, c2⟩ := c
  simp only [lexLe, lexLt, Bool.or_eq_true, Bool.and_eq_true, decide_eq_true_eq,
    Prod.mk.injEq] at h1 h2 ⊢
  omega

theorem commit_callback_root_mono (store : PayloadStore) (pending : PendingBlocks)
    (root : LedgerInfo) (blocks : List BlockInfo) (li : LedgerInfo) :
    lexLe (root.epoch, root.round)
      (((commit_callback store pending root blocks li).2.2).epoch,
       ((commit_callback store pending root blocks li).2.2).round) = true := by
  by_cases h1 : li.commit_info.epoch ≠ root.commit_info.epoch
  · simp [commit_callback, h1, lexLe_refl]
  · by_cases h2 : li.commit_info.round > root.commit_info.round
    · simp only [commit_callback, h1, if_false, h2, if_true, ite_not]
      simp only [lexLe, lexLt, LedgerInfo.epoch, LedgerInfo.round,
        Bool.or_eq_true, Bool.and_eq_true, decide_eq_true_eq, Prod.mk.injEq]
      push_neg at h1
      omega
    · simp [commit_callback, h1, h2, lexLe_refl]

theorem commit_callback_fold_mono (calls : List (List BlockInfo × LedgerInfo))
    (st : PayloadStore × PendingBlocks × LedgerInfo) :
    lexLe (st.2.2.epoch, st.2.2.round)
      (((calls.foldl commit_callback_step st).2.2).epoch,
       ((calls.foldl commit_callback_step st).2.2).round) = true := by
  induction calls generalizing st with
  | nil => simpa using lexLe_refl _
  | cons c rest ih =>
    refine lexLe_trans ?_ (ih (commit_callback_step st c))
    simpa [commit_callback_step] using
      commit_callback_root_mono st.1 st.2.1 st.2.2 c.1 c.2

section Fixtures

/-- Fixture: an oracle accepting every signature. -/
def ver_true : SigVer := fun _ _ => true

/-- Fixture: a configuration with depth bound ten. -/
def cfg0 : ConsensusObserverConfig := ⟨10⟩

/-- Fixture: a root ledger info at epoch five, round ten. -/
def root510 : LedgerInfo := ⟨⟨5, 10, 100, 99⟩⟩

/-- Fixture: an observer state at epoch five with empty stores. -/
def s_base : ObserverState :=
  { epoch_state := some ⟨5⟩, root := root510, block_payload_store := [],
    pending_ordered_blocks := [], sync_handle := none,
    active_observer_subscription := none }

/-- Fixture: a block payload message. -/
def bp0 : BlockPayload := ⟨⟨5, 11, 101, 100⟩, [1], none⟩

/-- Fixture: a commit decision at epoch seven, round three. -/
def cd0 : CommitDecision := ⟨⟨⟨7, 3, 40, 39⟩⟩⟩

end Fixtures

/-- C1 (amended): the sync job invokes sync_to on the commit proof and
    posts the (decision_epoch, decision_round) completion notification
    regardless of the sync_to outcome; it logs a warning exactly when
    sync_to failed. -/
theorem claim_C1_sync_job_notifies (ok : Bool) (cd : CommitDecision)
    (e r : Nat) :
    Effect.syncTo cd.commit_proof ∈ sync_to_commit_decision ok cd e r ∧
    Effect.notifySync e r ∈ sync_to_commit_decision ok cd e r ∧
    (Effect.logWarning ∈ sync_to_commit_decision ok cd e r ↔ ok = false) := by
  cases ok <;> simp [sync_to_commit_decision]

/-- C1 counterexample: with sync_to failing, the job logs the failure and
    nevertheless posts the (7, 3) completion notification, contradicting
    the claim that no notification is posted on failure. -/
theorem claim_C1_counterexample :
    Effect.logWarning ∈ sync_to_commit_decision false cd0 7 3 ∧
    Effect.notifySync 7 3 ∈ sync_to_commit_decision false cd0 7 3 := by
  decide

/-- C1 witness: the amended theorem evaluated at a successful run. -/
theorem claim_C1_witness :
    Effect.notifySync 7 3 ∈ sync_to_commit_decision true cd0 7 3 :=
  (claim_C1_sync_job_notifies true cd0 7 3).2.1

/-- C3: the commit callback removes the committed payloads, prunes the
    pending buffer up to the committed ledger info, leaves the root
    unchanged on an epoch mismatch, overwrites it exactly when the round
    strictly increases within the epoch, and the root key never decreases,
    also across any sequence of callback invocations. -/
theorem claim_C3_commit_callback (store : PayloadStore) (pending : PendingBlocks)
    (root : LedgerInfo) (blocks : List BlockInfo) (li : LedgerInfo) :
    (commit_callback store pending root blocks li).1 = remove_blocks store blocks ∧
    (commit_callback store pending root blocks li).2.1 =
      remove_blocks_for_commit pending li ∧
    (li.epoch ≠ root.epoch → (commit_callback store pending root blocks li).2.2 = root) ∧
    (li.epoch = root.epoch → li.round > root.round →
      (commit_callback store pending root blocks li).2.2 = li) ∧
    (li.epoch = root.epoch → ¬ li.round > root.round →
      (commit_callback store pending root blocks li).2.2 = root) ∧
    lexLe (root.epoch, root.round)
      (((commit_callback store pending root blocks li).2.2).epoch,
       ((commit_callback store pending root blocks li).2.2).round) = true ∧
    ∀ calls : List (List BlockInfo × LedgerInfo),
      ∀ st : PayloadStore × PendingBlocks × LedgerInfo,
        lexLe (st.2.2.epoch, st.2.2.round)
          (((calls.foldl commit_callback_step st).2.2).epoch,
           ((calls.foldl commit_callback_step st).2.2).round) = true := by
  refine ⟨?_, ?_, ?_, ?_, ?_, commit_callback_root_mono store pending root blocks li,
    fun calls st => commit_callback_fold_mono calls st⟩
  · by_cases h1 : li.commit_info.epoch ≠ root.commit_info.epoch
    · simp [commit_callback, h1]
    · by_cases h2 : li.commit_info.round > root.commit_info.round <;>
        simp [commit_callback, h1, h2]
  · by_cases h1 : li.commit_info.epoch ≠ root.commit_info.epoch
    · simp [commit_callback, h1]
    · by_cases h2 : li.commit_info.round > root.commit_info.round <;>
        simp [commit_callback, h1, h2]
  · intro h
    simp [commit_callback, LedgerInfo.epoch] at h ⊢
    simp [h]
  · intro h1 h2
    simp only [LedgerInfo.epoch] at h1
    simp only [LedgerInfo.round] at h2
    simp [commit_callback, h1, h2]
  · intro h1 h2
    simp only [LedgerInfo.epoch] at h1
    simp only [LedgerInfo.round] at h2
    simp [commit_callback, h1, h2]

/-- C3 witness: a commit callback for a different epoch leaves the root
    untouched. -/
theorem claim_C3_witness :
    (commit_callback [] [] root510 [] ⟨⟨6, 1, 200, 199⟩⟩).2.2 = root510 :=
  (claim_C3_commit_callback [] [] root510 [] ⟨⟨6, 1, 200, 199⟩⟩).2.2.1 (by decide)

/-- C10: a direct-send message from a sender that is not the subscribed
    peer, or received while no active subscription exists, leaves the
    whole observer state (buffers, payload store, root, epoch state and
    the subscription itself) unchanged, and fires an unsubscribe request
    to that sender. -/
theorem claim_C10_unexpected_sender (ver : SigVer)
    (config : ConsensusObserverConfig) (s : ObserverState) (peer : Nat)
    (msg : ConsensusObserverDirectSend)
    (h : s.active_observer_subscription = none ∨
      ∃ sub, s.active_observer_subscription = some sub ∧ sub.peer ≠ peer) :
    process_direct_send_message ver config s peer msg =
      .ok (s, [.logWarning, .unsubscribeRpc peer]) := by
  rcases h with h | ⟨sub, hsub, hne⟩
  · simp [process_direct_send_message, h]
  · simp [process_direct_send_message, hsub, verify_message_sender, hne]

/-- C10 witness: with no active subscription, a block payload message
    from peer nine is discarded and an unsubscribe request is fired. -/
theorem claim_C10_witness :
    process_direct_send_message ver_true cfg0 s_base 9 (.blockPayload bp0) =
      .ok (s_base, [.logWarning, .unsubscribeRpc 9]) :=
  claim_C10_unexpected_sender ver_true cfg0 s_base 9 (.blockPayload bp0) (Or.inl rfl)

theorem attach_fail_eq (s : ObserverState) (cd : CommitDecision)
    (h : (process_commit_decision_for_pending_block s cd).1 = false) :
    process_commit_decision_for_pending_block s cd = (false, s, []) := by
  cases hm : get_verified_pending_block s.pending_ordered_blocks cd.epoch cd.round with
  | none => simp [process_commit_decision_for_pending_block, hm]
  | some pb =>
    by_cases hp : all_payloads_exist s.block_payload_store pb.blocks = true
    · exfalso
      simp [process_commit_decision_for_pending_block, hm, hp] at h
    · simp [process_commit_decision_for_pending_block, hm, hp]

section Fixtures

/-- Fixture: a block at epoch five, round eleven, child of the root. -/
def bi511 : BlockInfo := ⟨5, 11, 101, 100⟩

/-- Fixture: a singleton ordered block over bi511. -/
def ob0 : OrderedBlock := ⟨bi511, [], ⟨bi511⟩⟩

/-- Fixture: a state holding ob0 unverified, with its payload present. -/
def s_unverified : ObserverState :=
  { s_base with
    pending_ordered_blocks := [((5, 11), ⟨ob0, false, none⟩)],
    block_payload_store := [(101, ⟨[1], none⟩)] }

/-- Fixture: a state holding ob0 verified, with its payload present. -/
def s_verified : ObserverState :=
  { s_base with
    pending_ordered_blocks := [((5, 11), ⟨ob0, true, none⟩)],
    block_payload_store := [(101, ⟨[1], none⟩)] }

/-- Fixture: a commit decision at (5, 11) matching ob0. -/
def cd511 : CommitDecision := ⟨⟨bi511⟩⟩

/-- Fixture: a commit decision at (4, 20): smaller epoch than the root,
    larger round. -/
def cd420 : CommitDecision := ⟨⟨⟨4, 20, 50, 49⟩⟩⟩

/-- Fixture: a commit decision at (6, 3): a future epoch. -/
def cd63 : CommitDecision := ⟨⟨⟨6, 3, 60, 59⟩⟩⟩

end Fixtures

/-- C7 (amended): the commit decision is recorded on the pending entry at
    (cd.epoch, cd.round), and forwarded when not in sync mode, iff that
    entry exists, its verified flag is set, and all its payloads are
    present in the payload store; otherwise the attach attempt returns
    false with the state unchanged, and processing falls through to the
    state sync check. -/
theorem claim_C7_attach (s : ObserverState) (cd : CommitDecision) :
    ((∃ entry, lookupKey s.pending_ordered_blocks (cd.epoch, cd.round) = some entry ∧
        entry.verified = true ∧
        all_payloads_exist s.block_payload_store entry.ordered_block.blocks = true) →
      process_commit_decision_for_pending_block s cd =
        (true,
         { s with pending_ordered_blocks :=
             update_commit_decision s.pending_ordered_blocks cd },
         if s.sync_handle.isNone then [Effect.sendCommitMsg cd.commit_proof] else [])) ∧
    (¬ (∃ entry, lookupKey s.pending_ordered_blocks (cd.epoch, cd.round) = some entry ∧
        entry.verified = true ∧
        all_payloads_exist s.block_payload_store entry.ordered_block.blocks = true) →
      process_commit_decision_for_pending_block s cd = (false, s, [])) := by
  constructor
  · rintro ⟨entry, hent, hver, hpay⟩
    simp [process_commit_decision_for_pending_block, get_verified_pending_block,
      hent, hver, hpay, forward_commit_decision]
  · intro h
    cases hm : lookupKey s.pending_ordered_blocks (cd.epoch, cd.round) with
    | none =>
      simp [process_commit_decision_for_pending_block, get_verified_pending_block, hm]
    | some entry =>
      by_cases hver : entry.verified = true
      · by_cases hpay :
          all_payloads_exist s.block_payload_store entry.ordered_block.blocks = true
        · exact absurd ⟨entry, hm, hver, hpay⟩ h
        · simp [process_commit_decision_for_pending_block,
            get_verified_pending_block, hm, hver, hpay]
      · simp [process_commit_decision_for_pending_block,
          get_verified_pending_block, hm, hver]

/-- C7 counterexample: the pending entry at (5, 11) exists and all its
    payloads are present, yet the attach attempt fails because the entry
    is not verified; the decision is not recorded, contradicting the claim
    as stated. -/
theorem claim_C7_counterexample :
    (lookupKey s_unverified.pending_ordered_blocks (cd511.epoch, cd511.round)).isSome
        = true ∧
    all_payloads_exist s_unverified.block_payload_store ob0.blocks = true ∧
    process_commit_decision_for_pending_block s_unverified cd511 =
      (false, s_unverified, []) := by
  refine ⟨rfl, rfl, rfl⟩

/-- C7 witness: the amended theorem evaluated on a verified entry with
    payloads present, outside sync mode. -/
theorem claim_C7_witness :
    process_commit_decision_for_pending_block s_verified cd511 =
      (true,
       { s_verified with pending_ordered_blocks :=
           update_commit_decision s_verified.pending_ordered_blocks cd511 },
       [Effect.sendCommitMsg cd511.commit_proof]) := by
  exact ((claim_C7_attach s_verified cd511).1 ⟨⟨ob0, true, none⟩, rfl, rfl, rfl⟩).trans rfl

/-- C2 (amended): when a verified commit decision could not be attached
    (and was not dropped by a failed signature check), the observer enters
    sync mode, setting the root to the commit proof, pruning the pending
    buffer up to the decision, spawning a sync job toward it and
    installing its handle (aborting any prior one), if and only if
    cd.epoch exceeds the epoch of the last known block OR cd.round
    exceeds its round: a disjunction of the component comparisons, not
    the lexicographic order. -/
theorem claim_C2_state_sync (ver : SigVer) (s : ObserverState)
    (cd : CommitDecision) (es : EpochState)
    (h_es : s.epoch_state = some es)
    (h_sig : cd.epoch = es.epoch → ver es cd.commit_proof = true)
    (h_att : cd.epoch = es.epoch →
      (process_commit_decision_for_pending_block s cd).1 = false) :
    process_commit_decision ver s cd =
      if cd.epoch > (get_last_block s).epoch ∨ cd.round > (get_last_block s).round then
        .ok ({ s with
                root := cd.commit_proof,
                pending_ordered_blocks :=
                  remove_blocks_for_commit s.pending_ordered_blocks cd.commit_proof,
                sync_handle := some () },
             [.logInfo, .spawnSyncJob cd.commit_proof]
               ++ (if s.sync_handle.isSome then [.abortSyncJob] else []))
      else .ok (s, []) := by
  by_cases he : cd.epoch = es.epoch
  · have hs := h_sig he
    have ha := attach_fail_eq s cd (h_att he)
    simp only [process_commit_decision, get_epoch_state, h_es, he, hs, ha]
    simp [h_es]
  · simp only [process_commit_decision, get_epoch_state, h_es, he]
    simp [he, h_es]

/-- C2 counterexample: with root (5, 10) and no pending blocks, a commit
    decision at (4, 20) is lexicographically smaller than the last known
    block, yet the observer enters sync mode: the implemented condition is
    a disjunction of the component comparisons. -/
theorem claim_C2_counterexample :
    lexLt ((get_last_block s_base).epoch, (get_last_block s_base).round)
      (cd420.epoch, cd420.round) = false ∧
    process_commit_decision ver_true s_base cd420 =
      .ok ({ s_base with
              root := cd420.commit_proof,
              pending_ordered_blocks := [],
              sync_handle := some () },
           [.logInfo, .spawnSyncJob cd420.commit_proof]) := by
  refine ⟨rfl, rfl⟩

/-- C2 witness: the amended theorem evaluated on a future-epoch decision,
    which starts a sync toward it. -/
theorem claim_C2_witness :
    process_commit_decision ver_true s_base cd63 =
      .ok ({ s_base with
              root := cd63.commit_proof,
              pending_ordered_blocks := [],
              sync_handle := some () },
           [.logInfo, .spawnSyncJob cd63.commit_proof]) := by
  exact (claim_C2_state_sync ver_true s_base cd63 ⟨5⟩ rfl
    (fun _ => rfl) (fun _ => rfl)).trans rfl

/-- C5: an ordered block that passes structural verification and, when its
    epoch is the current one, proof verification, is inserted into the
    pending buffer only when the parent id of its first block equals the
    id of the last known block (the last pending block, or the root commit
    info when the buffer is empty); a non-matching ordered block is
    dropped with a warning and the whole state is unchanged. -/
theorem claim_C5_parent_chain_gate (ver : SigVer)
    (config : ConsensusObserverConfig) (s : ObserverState) (ob : OrderedBlock)
    (es : EpochState) (h_es : s.epoch_state = some es)
    (h_struct : ob.verify_ordered_blocks = true)
    (h_sig : ob.proof_block_info.epoch = es.epoch → ver es ob.ordered_proof = true) :
    ((get_last_block s).id = ob.first_block.parent_id →
      process_ordered_block ver config s ob =
        .ok ({ s with
                pending_ordered_blocks :=
                  insert_ordered_block config.max_pending_blocks
                    s.pending_ordered_blocks ob
                    (decide (ob.proof_block_info.epoch = es.epoch)) },
             if decide (ob.proof_block_info.epoch = es.epoch) = true ∧
                 s.sync_handle = none then
               [Effect.finalizeOrder ob.blocks ob.ordered_proof]
             else [])) ∧
    ((get_last_block s).id ≠ ob.first_block.parent_id →
      process_ordered_block ver config s ob = .ok (s, [.logWarning])) := by
  constructor
  · intro hpar
    by_cases he : ob.proof_block_info.epoch = es.epoch
    · have hs := h_sig he
      simp [process_ordered_block, h_struct, get_epoch_state, h_es, he, hs, hpar,
        finalize_ordered_block]
      split <;> rfl
    · simp [process_ordered_block, h_struct, get_epoch_state, h_es, he, hpar,
        finalize_ordered_block]
  · intro hpar
    by_cases he : ob.proof_block_info.epoch = es.epoch
    · have hs := h_sig he
      simp [process_ordered_block, h_struct, get_epoch_state, h_es, he, hs, hpar]
    · simp [process_ordered_block, h_struct, get_epoch_state, h_es, he, hpar]

/-- C5 witness: a block chaining onto the root is inserted verified and
    finalized; the instantiated gate evaluates on concrete data. -/
theorem claim_C5_witness :
    process_ordered_block ver_true cfg0 s_base ob0 =
      .ok ({ s_base with pending_ordered_blocks := [((5, 11), ⟨ob0, true, none⟩)] },
           [Effect.finalizeOrder ob0.blocks ob0.ordered_proof]) := by
  exact ((claim_C5_parent_chain_gate ver_true cfg0 s_base ob0 ⟨5⟩ rfl rfl
    (fun _ => rfl)).1 rfl).trans rfl

theorem wait_for_epoch_start_effs (re : Option (Option OnChainConfigPayload))
    (s : ObserverState) (a : ObserverState) (b : List Effect)
    (h : wait_for_epoch_start re s = .ok (a, b)) :
    ∃ e, b = [Effect.startEpoch e] := by
  unfold wait_for_epoch_start at h
  split at h
  · exact absurd h (by simp)
  · split at h
    · exact absurd h (by simp)
    · simp only [Except.ok.injEq, Prod.mk.injEq] at h
      exact ⟨_, h.2.symm⟩

theorem process_ordered_block_effs (ver : SigVer)
    (config : ConsensusObserverConfig) (s : ObserverState) (ob : OrderedBlock)
    (s1 : ObserverState) (effs : List Effect)
    (h : process_ordered_block ver config s ob = .ok (s1, effs)) :
    effs = [.logError] ∨ effs = [.logWarning] ∨ effs = [] ∨
      (effs = [.finalizeOrder ob.blocks ob.ordered_proof] ∧ s.sync_handle = none) := by
  unfold process_ordered_block at h
  split at h
  · simp only [Except.ok.injEq, Prod.mk.injEq] at h
    exact Or.inl h.2.symm
  · split at h
    · exact absurd h (by simp)
    · split at h
      · simp only [Except.ok.injEq, Prod.mk.injEq] at h
        exact Or.inr (Or.inl h.2.symm)
      · split at h
        · split at h
          · rename_i hcond
            simp only [Except.ok.injEq, Prod.mk.injEq] at h
            refine Or.inr (Or.inr (Or.inr ⟨?_, hcond.2⟩))
            rw [← h.2]
            rfl
          · simp only [Except.ok.injEq, Prod.mk.injEq] at h
            exact Or.inr (Or.inr (Or.inl h.2.symm))
        · simp only [Except.ok.injEq, Prod.mk.injEq] at h
          exact Or.inr (Or.inl h.2.symm)

/-- C6: finalize_order is never invoked while the sync handle is set: the
    ordered block path emits no finalize effect when the handle is set,
    and in every successful run of the sync notification path any
    finalize effect occurs strictly after the sync handle reset. -/
theorem claim_C6_no_finalize_in_sync_mode :
    (∀ (ver : SigVer) (config : ConsensusObserverConfig) (s : ObserverState)
        (ob : OrderedBlock) (s1 : ObserverState) (effs : List Effect),
      s.sync_handle = some () →
      process_ordered_block ver config s ob = .ok (s1, effs) →
      effs.any isFinalizeOrder = false) ∧
    (∀ (ver : SigVer) (re : Option (Option OnChainConfigPayload))
        (s : ObserverState) (epoch round : Nat) (s1 : ObserverState)
        (effs : List Effect),
      process_sync_notification ver re s epoch round = .ok (s1, effs) →
      effs.any isFinalizeOrder = false ∨
        ∃ pre post, effs = pre ++ Effect.syncHandleReset :: post ∧
          pre.any isFinalizeOrder = false) := by
  constructor
  · intro ver config s ob s1 effs hsync h
    rcases process_ordered_block_effs ver config s ob s1 effs h with
      he | he | he | ⟨he, hnone⟩
    · rw [he]; rfl
    · rw [he]; rfl
    · rw [he]; rfl
    · rw [hnone] at hsync
      exact absurd hsync (by simp)
  · intro ver re s epoch round s1 effs h
    unfold process_sync_notification at h
    split at h
    · simp only [Except.ok.injEq, Prod.mk.injEq] at h
      left
      rw [← h.2]
      rfl
    · split at h
      · exact absurd h (by simp)
      · rename_i ces hces
        split at h
        · split at h
          · exact absurd h (by simp)
          · rename_i s2 effs2 hwait
            simp only [Except.ok.injEq, Prod.mk.injEq] at h
            obtain ⟨e, he⟩ := wait_for_epoch_start_effs re s s2 effs2 hwait
            right
            refine ⟨Effect.logInfo :: Effect.endEpoch :: effs2,
              drain_effects (get_all_verified_pending_blocks
                (verify_pending_blocks ver ces s2.pending_ordered_blocks)),
              ?_, ?_⟩
            · rw [← h.2]
              simp
            · rw [he]
              rfl
        · simp only [Except.ok.injEq, Prod.mk.injEq] at h
          right
          refine ⟨[Effect.logInfo],
            drain_effects (get_all_verified_pending_blocks s.pending_ordered_blocks),
            ?_, rfl⟩
          rw [← h.2]
          simp

/-- C6 witness: with the sync handle set, processing a chaining verified
    ordered block emits no finalize effect. -/
theorem claim_C6_witness :
    (List.any [] isFinalizeOrder) = false :=
  claim_C6_no_finalize_in_sync_mode.1 ver_true cfg0
    { s_base with sync_handle := some () } ob0
    { s_base with
        sync_handle := some (),
        pending_ordered_blocks := [((5, 11), ⟨ob0, true, none⟩)] } []
    rfl rfl

theorem drain_effects_cons (a : (Nat × Nat) × (OrderedBlock × Option CommitDecision))
    (rest : List ((Nat × Nat) × (OrderedBlock × Option CommitDecision))) :
    drain_effects (a :: rest) =
      (finalize_ordered_block a.2.1 ++
        (match a.2.2 with
         | some cd => forward_commit_decision cd
         | none => [])) ++ drain_effects rest := rfl

theorem drain_mem_finalize
    (l : List ((Nat × Nat) × (OrderedBlock × Option CommitDecision)))
    (bl : List BlockInfo) (pf : LedgerInfo)
    (h : Effect.finalizeOrder bl pf ∈ drain_effects l) :
    ∃ k ob cdq, (k, (ob, cdq)) ∈ l ∧ ob.blocks = bl ∧ ob.ordered_proof = pf := by
  induction l with
  | nil => simp [drain_effects] at h
  | cons a rest ih =>
    obtain ⟨k, ob, cdq⟩ := a
    rw [drain_effects_cons] at h
    rcases List.mem_append.mp h with h | h
    · cases cdq with
      | none =>
        simp [finalize_ordered_block] at h
        exact ⟨k, ob, none, List.mem_cons_self _ _, h.1.symm, h.2.symm⟩
      | some cd =>
        simp [finalize_ordered_block, forward_commit_decision] at h
        exact ⟨k, ob, some cd, List.mem_cons_self _ _, h.1.symm, h.2.symm⟩
    · obtain ⟨k', ob', cdq', hm, h1, h2⟩ := ih h
      exact ⟨k', ob', cdq', List.mem_cons_of_mem _ hm, h1, h2⟩

theorem get_all_verified_mem (pending : PendingBlocks) (k : Nat × Nat)
    (ob : OrderedBlock) (cdq : Option CommitDecision)
    (h : (k, (ob, cdq)) ∈ get_all_verified_pending_blocks pending) :
    ∃ e : PendingEntry, (k, e) ∈ pending ∧ e.verified = true ∧
      e.ordered_block = ob ∧ e.commit_decision = cdq := by
  unfold get_all_verified_pending_blocks at h
  rcases List.mem_map.mp h with ⟨⟨k', e⟩, hmem, heq⟩
  obtain ⟨hk, hob, hcd⟩ : k' = k ∧ e.ordered_block = ob ∧ e.commit_decision = cdq := by
    simpa [Prod.ext_iff] using heq
  rcases List.mem_filter.mp hmem with ⟨hmem', hver⟩
  exact ⟨e, hk ▸ hmem', by simpa using hver, hob, hcd⟩

section Fixtures

/-- Fixture: an oracle rejecting every signature. -/
def ver_false : SigVer := fun _ _ => false

end Fixtures

/-- C8: an ordered block of the current epoch has its ordered proof
    signature checked, is buffered verified on success and dropped with a
    warning on failure; a block of a different epoch is buffered
    unverified; an immediate finalize effect certifies that the proof was
    verified under the current epoch state; and every entry finalized by
    the post-sync drain has its verified flag set. -/
theorem claim_C8_verified_only_finalized :
    (∀ (ver : SigVer) (config : ConsensusObserverConfig) (s : ObserverState)
        (ob : OrderedBlock) (es : EpochState),
      s.epoch_state = some es → ob.verify_ordered_blocks = true →
      ob.proof_block_info.epoch = es.epoch → ver es ob.ordered_proof = false →
      process_ordered_block ver config s ob = .ok (s, [.logWarning])) ∧
    (∀ (ver : SigVer) (config : ConsensusObserverConfig) (s : ObserverState)
        (ob : OrderedBlock) (es : EpochState),
      s.epoch_state = some es → ob.verify_ordered_blocks = true →
      ob.proof_block_info.epoch = es.epoch → ver es ob.ordered_proof = true →
      (get_last_block s).id = ob.first_block.parent_id →
      ∃ effs, process_ordered_block ver config s ob =
        .ok ({ s with
                pending_ordered_blocks :=
                  insert_ordered_block config.max_pending_blocks
                    s.pending_ordered_blocks ob true }, effs)) ∧
    (∀ (ver : SigVer) (config : ConsensusObserverConfig) (s : ObserverState)
        (ob : OrderedBlock) (es : EpochState),
      s.epoch_state = some es → ob.verify_ordered_blocks = true →
      ob.proof_block_info.epoch ≠ es.epoch →
      (get_last_block s).id = ob.first_block.parent_id →
      process_ordered_block ver config s ob =
        .ok ({ s with
                pending_ordered_blocks :=
                  insert_ordered_block config.max_pending_blocks
                    s.pending_ordered_blocks ob false }, [])) ∧
    (∀ (ver : SigVer) (config : ConsensusObserverConfig) (s : ObserverState)
        (ob : OrderedBlock) (es : EpochState) (s1 : ObserverState)
        (effs : List Effect) (bl : List BlockInfo) (pf : LedgerInfo),
      s.epoch_state = some es →
      process_ordered_block ver config s ob = .ok (s1, effs) →
      Effect.finalizeOrder bl pf ∈ effs →
      bl = ob.blocks ∧ pf = ob.ordered_proof ∧
      ob.proof_block_info.epoch = es.epoch ∧ ver es ob.ordered_proof = true) ∧
    (∀ (ver : SigVer) (re : Option (Option OnChainConfigPayload))
        (s : ObserverState) (epoch round : Nat) (s1 : ObserverState)
        (effs : List Effect) (bl : List BlockInfo) (pf : LedgerInfo),
      process_sync_notification ver re s epoch round = .ok (s1, effs) →
      Effect.finalizeOrder bl pf ∈ effs →
      ∃ k e, (k, e) ∈ s1.pending_ordered_blocks ∧ e.verified = true ∧
        e.ordered_block.blocks = bl ∧ e.ordered_block.ordered_proof = pf) := by
  refine ⟨?_, ?_, ?_, ?_, ?_⟩
  · intro ver config s ob es h_es h_struct he hv
    simp [process_ordered_block, h_struct, get_epoch_state, h_es, he, hv]
  · intro ver config s ob es h_es h_struct he hv hpar
    by_cases hsy : s.sync_handle = none
    · exact ⟨[Effect.finalizeOrder ob.blocks ob.ordered_proof],
        by simp [process_ordered_block, h_struct, get_epoch_state, h_es, he, hv,
          hpar, hsy, finalize_ordered_block]⟩
    · exact ⟨[],
        by simp [process_ordered_block, h_struct, get_epoch_state, h_es, he, hv,
          hpar, hsy]⟩
  · intro ver config s ob es h_es h_struct he hpar
    simp [process_ordered_block, h_struct, get_epoch_state, h_es, he, hpar]
  · intro ver config s ob es s1 effs bl pf h_es h hmem
    unfold process_ordered_block at h
    split at h
    · simp only [Except.ok.injEq, Prod.mk.injEq] at h
      rw [← h.2] at hmem
      simp at hmem
    · split at h
      · exact absurd h (by simp)
      · rename_i ces hces
        have hces' : ces = es := by
          simp only [get_epoch_state, h_es, Except.ok.injEq] at hces
          exact hces.symm
        subst hces'
        split at h
        · simp only [Except.ok.injEq, Prod.mk.injEq] at h
          rw [← h.2] at hmem
          simp at hmem
        · rename_i hneg
          split at h
          · split at h
            · rename_i hcond
              simp only [Except.ok.injEq, Prod.mk.injEq] at h
              rw [← h.2] at hmem
              simp [finalize_ordered_block] at hmem
              have hde : ob.proof_block_info.epoch = ces.epoch :=
                of_decide_eq_true hcond.1
              have hv : ver ces ob.ordered_proof = true := by
                cases hb : ver ces ob.ordered_proof
                · exact absurd ⟨hde, hb⟩ hneg
                · rfl
              exact ⟨hmem.1, hmem.2, hde, hv⟩
            · simp only [Except.ok.injEq, Prod.mk.injEq] at h
              rw [← h.2] at hmem
              simp at hmem
          · simp only [Except.ok.injEq, Prod.mk.injEq] at h
            rw [← h.2] at hmem
            simp at hmem
  · intro ver re s epoch round s1 effs bl pf h hmem
    unfold process_sync_notification at h
    split at h
    · simp only [Except.ok.injEq, Prod.mk.injEq] at h
      rw [← h.2] at hmem
      simp at hmem
    · split at h
      · exact absurd h (by simp)
      · rename_i ces hces
        split at h
        · split at h
          · exact absurd h (by simp)
          · rename_i s2 effs2 hwait
            obtain ⟨e, he⟩ := wait_for_epoch_start_effs re s s2 effs2 hwait
            simp only [Except.ok.injEq, Prod.mk.injEq] at h
            rw [← h.2, he] at hmem
            have hd : Effect.finalizeOrder bl pf ∈
                drain_effects (get_all_verified_pending_blocks
                  (verify_pending_blocks ver ces s2.pending_ordered_blocks)) := by
              simpa using hmem
            obtain ⟨k, obv, cdq, hmem2, h1, h2⟩ := drain_mem_finalize _ bl pf hd
            obtain ⟨pe, hpe, hver, hob, hcd⟩ := get_all_verified_mem _ k obv cdq hmem2
            refine ⟨k, pe, ?_, hver, by rw [hob, h1], by rw [hob, h2]⟩
            rw [← h.1]
            simpa using hpe
        · simp only [Except.ok.injEq, Prod.mk.injEq] at h
          rw [← h.2] at hmem
          have hd : Effect.finalizeOrder bl pf ∈
              drain_effects (get_all_verified_pending_blocks
                s.pending_ordered_blocks) := by
            simpa using hmem
          obtain ⟨k, obv, cdq, hmem2, h1, h2⟩ := drain_mem_finalize _ bl pf hd
          obtain ⟨pe, hpe, hver, hob, hcd⟩ := get_all_verified_mem _ k obv cdq hmem2
          refine ⟨k, pe, ?_, hver, by rw [hob, h1], by rw [hob, h2]⟩
          rw [← h.1]
          simpa using hpe

/-- C8 witness: a current-epoch ordered block whose proof fails the
    signature check is dropped with a warning. -/
theorem claim_C8_witness :
    process_ordered_block ver_false cfg0 s_base ob0 = .ok (s_base, [.logWarning]) :=
  claim_C8_verified_only_finalized.1 ver_false cfg0 s_base ob0 ⟨5⟩ rfl rfl rfl rfl

theorem drain_filter_finalize
    (l : List ((Nat × Nat) × (OrderedBlock × Option CommitDecision))) :
    (drain_effects l).filter isFinalizeOrder =
      l.map (fun p => Effect.finalizeOrder p.2.1.blocks p.2.1.ordered_proof) := by
  induction l with
  | nil => rfl
  | cons a rest ih =>
    obtain ⟨k, ob, cdq⟩ := a
    cases cdq <;>
      simp [drain_effects_cons, List.filter_append, finalize_ordered_block,
        forward_commit_decision, isFinalizeOrder, ih]

theorem drain_filter_send
    (l : List ((Nat × Nat) × (OrderedBlock × Option CommitDecision))) :
    (drain_effects l).filter isSendCommitMsg =
      (l.filterMap (fun p => p.2.2)).map
        (fun cd => Effect.sendCommitMsg cd.commit_proof) := by
  induction l with
  | nil => rfl
  | cons a rest ih =>
    obtain ⟨k, ob, cdq⟩ := a
    cases cdq <;>
      simp [drain_effects_cons, List.filter_append, finalize_ordered_block,
        forward_commit_decision, isSendCommitMsg, List.filterMap_cons, ih]

theorem verify_pending_blocks_sorted (ver : SigVer) (es : EpochState)
    {pending : PendingBlocks} (h : pendingSorted pending) :
    pendingSorted (verify_pending_blocks ver es pending) := by
  unfold pendingSorted at h ⊢
  unfold verify_pending_blocks
  refine List.Pairwise.filterMap _ ?_ h
  intro a a' hr b hb b' hb'
  rw [Option.mem_def] at hb hb'
  have hb1 : b.1 = a.1 := by
    split at hb
    · injection hb with hb
      rw [← hb]
    · split at hb
      · injection hb with hb
        rw [← hb]
      · exact absurd hb (by simp)
  have hb1' : b'.1 = a'.1 := by
    split at hb'
    · injection hb' with hb'
      rw [← hb']
    · split at hb'
      · injection hb' with hb'
        rw [← hb']
      · exact absurd hb' (by simp)
  rw [hb1, hb1']
  exact hr

theorem get_all_verified_pairwise {pending : PendingBlocks}
    (h : pendingSorted pending) :
    (get_all_verified_pending_blocks pending).Pairwise
      (fun a b => lexLt a.1 b.1 = true) := by
  unfold pendingSorted at h
  unfold get_all_verified_pending_blocks
  refine List.Pairwise.map _ ?_ (List.Pairwise.filter _ h)
  intro a b hab
  exact hab

/-- C4: a sync completion notification is acted upon iff the root key
    equals it exactly, otherwise the state is untouched; when acted upon
    with a larger epoch, the client epoch is ended, the new epoch state is
    installed and the pending blocks are re-verified against the old
    epoch state; then the sync handle is dropped and the verified pending
    blocks are finalized in strictly increasing key order exactly once,
    forwarding any attached commit decision. -/
theorem claim_C4_sync_completion (ver : SigVer)
    (re : Option (Option OnChainConfigPayload)) (s : ObserverState)
    (epoch round : Nat) (es : EpochState)
    (h_es : s.epoch_state = some es)
    (h_sorted : pendingSorted s.pending_ordered_blocks) :
    (check_root_epoch_and_round s.root epoch round = false →
      process_sync_notification ver re s epoch round = .ok (s, [.logInfo, .logInfo])) ∧
    (check_root_epoch_and_round s.root epoch round = true → ¬ epoch > es.epoch →
      process_sync_notification ver re s epoch round =
        .ok ({ s with sync_handle := none },
             [.logInfo, .syncHandleReset] ++
               drain_effects (get_all_verified_pending_blocks
                 s.pending_ordered_blocks)) ∧
      (drain_effects (get_all_verified_pending_blocks
          s.pending_ordered_blocks)).filter isFinalizeOrder =
        (get_all_verified_pending_blocks s.pending_ordered_blocks).map
          (fun p => Effect.finalizeOrder p.2.1.blocks p.2.1.ordered_proof) ∧
      (drain_effects (get_all_verified_pending_blocks
          s.pending_ordered_blocks)).filter isSendCommitMsg =
        ((get_all_verified_pending_blocks s.pending_ordered_blocks).filterMap
            (fun p => p.2.2)).map
          (fun cd => Effect.sendCommitMsg cd.commit_proof) ∧
      (get_all_verified_pending_blocks s.pending_ordered_blocks).Pairwise
        (fun a b => lexLt a.1 b.1 = true)) ∧
    (check_root_epoch_and_round s.root epoch round = true → epoch > es.epoch →
      ∀ payload vs, re = some (some payload) → payload.validator_set = some vs →
        process_sync_notification ver re s epoch round =
          .ok ({ s with
                  epoch_state := some ⟨payload.epoch⟩,
                  pending_ordered_blocks :=
                    verify_pending_blocks ver es s.pending_ordered_blocks,
                  sync_handle := none },
               [.logInfo, .endEpoch, .startEpoch payload.epoch, .syncHandleReset] ++
                 drain_effects (get_all_verified_pending_blocks
                   (verify_pending_blocks ver es s.pending_ordered_blocks))) ∧
        (drain_effects (get_all_verified_pending_blocks
            (verify_pending_blocks ver es s.pending_ordered_blocks))).filter
            isFinalizeOrder =
          (get_all_verified_pending_blocks
            (verify_pending_blocks ver es s.pending_ordered_blocks)).map
            (fun p => Effect.finalizeOrder p.2.1.blocks p.2.1.ordered_proof) ∧
        (get_all_verified_pending_blocks
          (verify_pending_blocks ver es s.pending_ordered_blocks)).Pairwise
          (fun a b => lexLt a.1 b.1 = true)) := by
  refine ⟨?_, ?_, ?_⟩
  · intro hc
    simp [process_sync_notification, hc]
  · intro hc hng
    refine ⟨?_, drain_filter_finalize _, drain_filter_send _,
      get_all_verified_pairwise h_sorted⟩
    simp [process_sync_notification, hc, get_epoch_state, h_es, hng]
  · intro hc hgt payload vs hre hvs
    refine ⟨?_, drain_filter_finalize _,
      get_all_verified_pairwise (verify_pending_blocks_sorted ver es h_sorted)⟩
    simp [process_sync_notification, hc, get_epoch_state, h_es, hgt, hre,
      wait_for_epoch_start, extract_on_chain_configs, hvs]

section Fixtures

/-- Fixture: a state in sync mode holding one verified pending block with
    an attached commit decision. -/
def s_drain : ObserverState :=
  { s_base with
    pending_ordered_blocks := [((5, 11), ⟨ob0, true, some cd511⟩)],
    sync_handle := some () }

end Fixtures

/-- C4 witness: a matching notification drops the sync handle and drains
    the single verified pending block, forwarding its decision. -/
theorem claim_C4_witness :
    process_sync_notification ver_true none s_drain 5 10 =
      .ok ({ s_drain with sync_handle := none },
           [.logInfo, .syncHandleReset,
            .finalizeOrder ob0.blocks ob0.ordered_proof,
            .sendCommitMsg cd511.commit_proof]) := by
  exact ((claim_C4_sync_completion ver_true none s_drain 5 10 ⟨5⟩ rfl
    (by simp [pendingSorted, s_drain])).2.1 rfl (by decide)).1.trans rfl

section Fixtures

/-- Fixture: an on-chain config payload without a validator set. -/
def payload_no_validators : OnChainConfigPayload := ⟨6, none, none, none, none⟩

/-- Fixture: an observer state without an installed epoch state. -/
def s_no_epoch : ObserverState := { s_base with epoch_state := none }

end Fixtures

/-- C9 (amended): the message processing paths recover from every runtime
    error (they return normally once the epoch state is installed), and
    the observer aborts exactly on: a failed latest ledger info read at
    construction, a query of the unset epoch state, the absence of the
    reconfiguration listener at an epoch transition, the end of the
    reconfiguration stream, and a missing validator set in the on-chain
    configs. -/
theorem claim_C9_panic_surface :
    (new none = .error .failedToReadLedgerInfo) ∧
    (∀ li : LedgerInfo, ∃ s, new (some li) = .ok s) ∧
    (∀ s : ObserverState,
      wait_for_epoch_start none s = .error .reconfigListenerAbsent) ∧
    (∀ s : ObserverState,
      wait_for_epoch_start (some none) s = .error .reconfigStreamEnded) ∧
    (∀ (s : ObserverState) (payload : OnChainConfigPayload),
      payload.validator_set = none →
      wait_for_epoch_start (some (some payload)) s = .error .validatorSetMissing) ∧
    (∀ (s : ObserverState) (payload : OnChainConfigPayload) (vs : ValidatorSet),
      payload.validator_set = some vs →
      ∃ r, wait_for_epoch_start (some (some payload)) s = .ok r) ∧
    (∀ s : ObserverState, s.epoch_state = none →
      get_epoch_state s = .error .epochStateNotSet) ∧
    (∀ (ver : SigVer) (s : ObserverState) (cd : CommitDecision) (es : EpochState),
      s.epoch_state = some es → ∃ r, process_commit_decision ver s cd = .ok r) ∧
    (∀ (ver : SigVer) (config : ConsensusObserverConfig) (s : ObserverState)
        (ob : OrderedBlock) (es : EpochState),
      s.epoch_state = some es → ∃ r, process_ordered_block ver config s ob = .ok r) ∧
    (∀ (ver : SigVer) (config : ConsensusObserverConfig) (s : ObserverState)
        (peer : Nat) (msg : ConsensusObserverDirectSend) (es : EpochState),
      s.epoch_state = some es →
      ∃ r, process_direct_send_message ver config s peer msg = .ok r) ∧
    (∀ (ver : SigVer) (re : Option (Option OnChainConfigPayload))
        (s : ObserverState) (epoch round : Nat) (es : EpochState)
        (p : ObserverPanic),
      s.epoch_state = some es →
      process_sync_notification ver re s epoch round = .error p →
      p = .reconfigListenerAbsent ∨ p = .reconfigStreamEnded ∨
        p = .validatorSetMissing) := by
  refine ⟨rfl, fun li => ⟨_, rfl⟩, fun s => rfl, fun s => rfl, ?_, ?_, ?_, ?_, ?_, ?_, ?_⟩
  · intro s payload hvs
    simp [wait_for_epoch_start, extract_on_chain_configs, hvs]
  · intro s payload vs hvs
    exact ⟨({ s with epoch_state := some ⟨payload.epoch⟩ },
            [Effect.startEpoch payload.epoch]),
      by simp [wait_for_epoch_start, extract_on_chain_configs, hvs]⟩
  · intro s hs
    simp [get_epoch_state, hs]
  · intro ver s cd es h_es
    simp only [process_commit_decision, get_epoch_state, h_es]
    repeat' split
    all_goals exact ⟨_, rfl⟩
  · intro ver config s ob es h_es
    simp only [process_ordered_block, get_epoch_state, h_es]
    repeat' split
    all_goals exact ⟨_, rfl⟩
  · intro ver config s peer msg es h_es
    cases msg with
    | orderedBlock ob =>
      simp only [process_direct_send_message, process_ordered_block,
        get_epoch_state, h_es]
      repeat' split
      all_goals exact ⟨_, rfl⟩
    | commitDecision cd =>
      simp only [process_direct_send_message, process_commit_decision,
        get_epoch_state, h_es]
      repeat' split
      all_goals exact ⟨_, rfl⟩
    | blockPayload bp =>
      simp only [process_direct_send_message]
      repeat' split
      all_goals exact ⟨_, rfl⟩
  · intro ver re s epoch round es p h_es h
    unfold process_sync_notification at h
    split at h
    · exact absurd h (by simp)
    · rw [show get_epoch_state s = .ok es from by simp [get_epoch_state, h_es]] at h
      simp only at h
      split at h
      · rcases hw : wait_for_epoch_start re s with pw | rw2
        · rw [hw] at h
          simp only [Except.error.injEq] at h
          subst h
          cases re with
          | none =>
            simp only [wait_for_epoch_start] at hw
            simp only [Except.error.injEq] at hw
            subst hw
            exact Or.inl rfl
          | some next =>
            cases next with
            | none =>
              simp only [wait_for_epoch_start, extract_on_chain_configs] at hw
              simp only [Except.error.injEq] at hw
              subst hw
              exact Or.inr (Or.inl rfl)
            | some payload =>
              cases hvs : payload.validator_set with
              | none =>
                simp only [wait_for_epoch_start, extract_on_chain_configs, hvs] at hw
                simp only [Except.error.injEq] at hw
                subst hw
                exact Or.inr (Or.inr rfl)
              | some vs =>
                simp [wait_for_epoch_start, extract_on_chain_configs, hvs] at hw
        · rw [hw] at h
          obtain ⟨s2, effs2⟩ := rw2
          exact absurd h (by simp)
      · exact absurd h (by simp)

/-- C9 counterexample: with the reconfiguration listener present, a
    notification lacking the validator set still aborts the observer, so
    listener absence is not the only fatal condition. -/
theorem claim_C9_counterexample :
    wait_for_epoch_start (some (some payload_no_validators)) s_base =
      .error .validatorSetMissing ∧
    ObserverPanic.validatorSetMissing ≠ ObserverPanic.reconfigListenerAbsent := by
  exact ⟨rfl, by decide⟩

/-- C9 witness: the amended theorem evaluated at a state with the epoch
    state unset. -/
theorem claim_C9_witness :
    get_epoch_state s_no_epoch = .error .epochStateNotSet :=
  claim_C9_panic_surface.2.2.2.2.2.2.1 s_no_epoch rfl

end ConsensusObserver
